import Mathlib

/-
Verification of the react-audio-recorder-hook documentation corpus.

The repository ships documentation only; the recorder engine the docs
describe (state machine, chunk recorder, result assembler) is not in the
repository, so those components are modelled from the specification text
(sections 4.1 to 4.4, 5, 6, 7 of spec.md).  The one piece of behaviour the
repository itself declares, the TypeScript type of the externally observed
status field in src/src/content/docs/api/return-values.md, is embedded
directly from that file.
-/

set_option autoImplicit false

namespace AudioRecorder

/-- Modelled from the spec: the five states of the Recording State Machine
of section 4.3, which the repository documents but does not implement. -/
inductive Status
  | idle
  | recording
  | paused
  | stopped
  | error
deriving DecidableEq, Repr

/-- Modelled from the spec: the error taxonomy of section 7, absent from
the repository sources. -/
inductive ErrorKind
  | PermissionDenied
  | Unsupported
  | DeviceUnavailable
  | InternalFailure
deriving DecidableEq, Repr

/-- Modelled from the spec: the ErrorCondition record of section 3. -/
structure ErrorCondition where
  kind : ErrorKind
  message : String
deriving DecidableEq, Repr

/-- A chunk is one encoded byte fragment; bytes are modelled as Nat. -/
abbrev Chunk := List Nat

/-- Modelled from the spec: the RecordingSession record of section 3
(status, stream ownership, ordered chunk buffer, duration tracking, last
error), which the repository documents but does not implement.  Elapsed
time is tracked in whole milliseconds. -/
structure Session where
  status : Status
  streamHandle : Option Nat
  chunkBuffer : List Chunk
  elapsedMs : Nat
  lastError : Option ErrorCondition
deriving DecidableEq, Repr

/-- The initial session: status idle, no stream, empty buffer, zero
timer, no error. -/
def initSession : Session :=
  { status := .idle
    streamHandle := none
    chunkBuffer := []
    elapsedMs := 0
    lastError := none }

/-- Modelled from the spec: the events driving the State Machine.  The
five caller transition requests of section 6 plus the host-environment
events of section 5: wall-clock advance, chunk delivery from the Chunk
Recorder, and host failure (for example device loss).  A start request
carries the acquisition result of the Capture Source Adapter, and a stop
request carries the final chunk flushed by the Chunk Recorder finish
operation. -/
inductive Event
  | start (acq : Except ErrorKind Nat)
  | pause
  | resume
  | stop (flush : Chunk)
  | cancel
  | tick (dt : Nat)
  | chunkReady (c : Chunk)
  | hostFailure (k : ErrorKind)

/-- The error message recorded for each error kind, following the
possible errors listed in the return-values documentation page. -/
def errorMessageFor : ErrorKind → String
  | .PermissionDenied => "Permission denied for microphone access"
  | .Unsupported => "MediaRecorder API not supported by the browser"
  | .DeviceUnavailable => "No eligible audio input device is available"
  | .InternalFailure => "Invalid state transition requested"

/-- The session re-armed by a successful start: fresh recording status,
the newly acquired stream, reset buffer and timer (spec section 4.3,
idle to recording row). -/
def freshSession (h : Nat) : Session :=
  { status := .recording
    streamHandle := some h
    chunkBuffer := []
    elapsedMs := 0
    lastError := none }

/-- The session after an unrecoverable failure: error status, stream
released, buffer cleared, error recorded (spec sections 3 and 7). -/
def failedSession (k : ErrorKind) : Session :=
  { status := .error
    streamHandle := none
    chunkBuffer := []
    elapsedMs := 0
    lastError := some ⟨k, errorMessageFor k⟩ }

/-- Start actually begins a new session only from idle, stopped, or
error (spec section 4.3). -/
def canStart : Status → Bool
  | .idle => true
  | .stopped => true
  | .error => true
  | .recording => false
  | .paused => false

/-- Modelled from the spec: the transition function of the Recording
State Machine, section 4.3, which the repository documents but does not
implement.  Returns the successor session together with the error kind
the call reports, if any; invalid pause, resume, and stop requests leave
the session unchanged and report InternalFailure, a start issued while
recording or paused is an error-free no-op, and cancel always resets to
the initial session.  The tick event adds wall-clock milliseconds to the
timer only while recording, and chunks are appended only while recording
(section 5: no chunk is attributed to a paused interval). -/
def step (s : Session) : Event → Session × Option ErrorKind
  | .start acq =>
    if canStart s.status then
      match acq with
      | .ok h => (freshSession h, none)
      | .error k => (failedSession k, some k)
    else
      (s, none)
  | .pause =>
    if s.status = .recording then
      ({ s with status := .paused }, none)
    else
      (s, some .InternalFailure)
  | .resume =>
    if s.status = .paused then
      ({ s with status := .recording }, none)
    else
      (s, some .InternalFailure)
  | .stop flush =>
    if s.status = .recording ∨ s.status = .paused then
      ({ s with status := .stopped
                streamHandle := none
                chunkBuffer := s.chunkBuffer ++ [flush] }, none)
    else
      (s, some .InternalFailure)
  | .cancel => (initSession, none)
  | .tick dt =>
    if s.status = .recording then
      ({ s with elapsedMs := s.elapsedMs + dt }, none)
    else
      (s, none)
  | .chunkReady c =>
    if s.status = .recording then
      ({ s with chunkBuffer := s.chunkBuffer ++ [c] }, none)
    else
      (s, none)
  | .hostFailure k =>
    if s.status = .recording ∨ s.status = .paused ∨ s.status = .idle then
      ({ failedSession k with chunkBuffer := s.chunkBuffer
                              elapsedMs := s.elapsedMs }, some k)
    else
      (s, none)

/-- Run a list of events from a session. -/
def runEvents (s : Session) : List Event → Session
  | [] => s
  | e :: es => runEvents (step s e).1 es

/-- The sessions reachable from the initial session. -/
inductive reach : Session → Prop
  | init : reach initSession
  | next (s : Session) (e : Event) : reach s → reach (step s e).1

/-- The elapsed duration in floating seconds, derived from the
millisecond timer. -/
def elapsedSeconds (s : Session) : ℚ := (s.elapsedMs : ℚ) / 1000

/-- The isRecording projection of the status field: true for the whole
span from start until stop, cancel, or error, including paused intervals
(spec sections 6 and 9). -/
def isRecording (s : Session) : Bool :=
  match s.status with
  | .recording => true
  | .paused => true
  | _ => false

/-- The isPaused projection of the status field (spec sections 6 and 9). -/
def isPaused (s : Session) : Bool :=
  match s.status with
  | .paused => true
  | _ => false

/-- The MIME type the documentation gives for recorded audio. -/
def webmMime : String := "audio/webm"

/-- Modelled from the spec: the RecordingArtifact record of section 3,
absent from the repository sources.  The reference is a revocable handle
modelled as a Nat. -/
structure RecordingArtifact where
  data : List Nat
  reference : Nat
  mimeType : String
  durationSeconds : ℚ
deriving DecidableEq, Repr

/-- Modelled from the spec: the Result Assembler of section 4.4, absent
from the repository sources.  Returns none when the chunk buffer is
empty; otherwise concatenates the ordered chunk sequence into one
payload and mints the freshly supplied reference. -/
def assemble (s : Session) (ref : Nat) : Option RecordingArtifact :=
  if s.chunkBuffer = [] then none
  else some
    { data := s.chunkBuffer.flatten
      reference := ref
      mimeType := webmMime
      durationSeconds := elapsedSeconds s }

/-- The playback variant of the assembler: only the reference. -/
def assembleForPlayback (s : Session) (ref : Nat) : Option Nat :=
  (assemble s ref).map RecordingArtifact.reference

/-- The storage variant of the assembler: payload and reference. -/
def assembleForStorage (s : Session) (ref : Nat) : Option RecordingArtifact :=
  assemble s ref

/-- The five caller transition requests of spec section 6. -/
inductive Req
  | start
  | pause
  | resume
  | stop
  | cancel
deriving DecidableEq, Repr

/-- A transition request as an event, under normal operation: start with
a successful acquisition, stop with an empty final flush fragment. -/
def reqEvent : Req → Event
  | .start => .start (.ok 0)
  | .pause => .pause
  | .resume => .resume
  | .stop => .stop []
  | .cancel => .cancel

/-- The status transition table of spec section 4.3, written from the
table and its accompanying text: listed transitions move to their target
status, a start while recording or paused and any invalid request keep
the current status, and cancel always returns to idle. -/
def specStep : Status → Req → Status
  | .idle, .start => .recording
  | .stopped, .start => .recording
  | .error, .start => .recording
  | .recording, .pause => .paused
  | .paused, .resume => .recording
  | .recording, .stop => .stopped
  | .paused, .stop => .stopped
  | _, .cancel => .idle
  | st, _ => st

/-- Run a list of transition requests from a session. -/
def runReqs (s : Session) : List Req → Session
  | [] => s
  | r :: rs => runReqs (step s (reqEvent r)).1 rs

/-- The requests the spec marks invalid in a given status: pause while
not recording, resume while not paused, stop while not recording or
paused. -/
def invalidReq (st : Status) : Req → Bool
  | .pause => st ≠ .recording
  | .resume => st ≠ .paused
  | .stop => ¬(st = .recording ∨ st = .paused)
  | .start => false
  | .cancel => false

/-- The status values declared by the repository for the externally
observed status field, transcribed from
src/src/content/docs/api/return-values.md line 82 and the table of the
status-values page: idle, recording, stopped, error. -/
inductive DocStatus
  | idle
  | recording
  | stopped
  | error
deriving DecidableEq, Repr

/-- The string of each documented status value. -/
def docStatusString : DocStatus → String
  | .idle => "idle"
  | .recording => "recording"
  | .stopped => "stopped"
  | .error => "error"

/-- The list of status strings exactly as the documented TypeScript
union type declares them. -/
def documentedStatusValues : List String :=
  ["idle", "recording", "stopped", "error"]

/-- The documented default of the status field. -/
def docInitialStatus : DocStatus := .idle

/-- The session invariants the development shares: a recorded error
implies error status with the stream released, and a stopped session
has a non-empty chunk buffer. -/
def SessionInv (s : Session) : Prop :=
  (s.lastError ≠ none → s.status = .error ∧ s.streamHandle = none) ∧
  (s.status = .stopped → s.chunkBuffer ≠ [])

theorem sessionInv_init : SessionInv initSession := by
  constructor <;> intro h <;> simp [initSession] at h

theorem sessionInv_step (s : Session) (e : Event) (h : SessionInv s) :
    SessionInv (step s e).1 := by
  obtain ⟨h1, h2⟩ := h
  cases e with
  | start acq =>
    by_cases hc : canStart s.status = true
    · cases acq with
      | ok hdl =>
        simp only [step, hc, if_pos]
        constructor <;> intro hx <;> simp [freshSession] at hx
      | error k =>
        simp only [step, hc, if_pos]
        constructor <;> intro hx <;> simp [failedSession] at hx ⊢
    · simp only [step, hc, if_neg, Bool.false_eq_true, not_false_iff, ite_false]
      exact ⟨h1, h2⟩
  | pause =>
    by_cases hc : s.status = .recording
    · simp only [step, hc, if_pos]
      constructor
      · intro hx
        have := (h1 hx).1
        rw [hc] at this
        exact absurd this (by simp)
      · intro hx
        simp at hx
    · simp only [step, hc, if_neg]
      exact ⟨h1, h2⟩
  | resume =>
    by_cases hc : s.status = .paused
    · simp only [step, hc, if_pos]
      constructor
      · intro hx
        have := (h1 hx).1
        rw [hc] at this
        exact absurd this (by simp)
      · intro hx
        simp at hx
    · simp only [step, hc, if_neg]
      exact ⟨h1, h2⟩
  | stop flush =>
    by_cases hc : s.status = .recording ∨ s.status = .paused
    · simp only [step, hc, if_pos]
      constructor
      · intro hx
        have := (h1 hx).1
        rcases hc with hc | hc <;> rw [hc] at this <;> exact absurd this (by simp)
      · intro _
        simp
    · simp only [step, hc, if_neg]
      exact ⟨h1, h2⟩
  | cancel =>
    simp only [step]
    exact sessionInv_init
  | tick dt =>
    by_cases hc : s.status = .recording
    · simp only [step, hc, if_pos]
      constructor
      · intro hx
        have := (h1 hx).1
        rw [hc] at this
        exact absurd this (by simp)
      · intro hx
        simp at hx
    · simp only [step, hc, if_neg]
      exact ⟨h1, h2⟩
  | chunkReady c =>
    by_cases hc : s.status = .recording
    · simp only [step, hc, if_pos]
      constructor
      · intro hx
        have := (h1 hx).1
        rw [hc] at this
        exact absurd this (by simp)
      · intro hx
        simp at hx
    · simp only [step, hc, if_neg]
      exact ⟨h1, h2⟩
  | hostFailure k =>
    by_cases hc : s.status = .recording ∨ s.status = .paused ∨ s.status = .idle
    · simp only [step, hc, if_pos]
      constructor
      · intro _
        exact ⟨rfl, rfl⟩
      · intro hx
        simp [failedSession] at hx
    · simp only [step, hc, if_neg]
      exact ⟨h1, h2⟩

theorem sessionInv_reach (s : Session) (h : reach s) : SessionInv s := by
  induction h with
  | init => exact sessionInv_init
  | next s e _ ih => exact sessionInv_step s e ih

/-- The status after a transition request agrees with the status
transition table. -/
theorem step_status_spec (s : Session) (r : Req) :
    ((step s (reqEvent r)).1).status = specStep s.status r := by
  cases r <;> cases hs : s.status <;>
    simp [step, reqEvent, specStep, canStart, hs, freshSession, initSession]

/-- Seconds-level monotonicity follows from millisecond-level
monotonicity of the timer. -/
theorem elapsedSeconds_mono {s t : Session} (h : s.elapsedMs ≤ t.elapsedMs) :
    elapsedSeconds s ≤ elapsedSeconds t := by
  unfold elapsedSeconds
  gcongr


/-- While recording, no event decreases the millisecond timer as long
as the status stays recording. -/
theorem step_elapsedMs_recording (s : Session) (e : Event)
    (h1 : s.status = .recording) (h2 : ((step s e).1).status = .recording) :
    s.elapsedMs ≤ ((step s e).1).elapsedMs := by
  cases e <;> simp_all [step, canStart, initSession, failedSession]

/-- While paused, no event changes the millisecond timer as long as the
status stays paused. -/
theorem step_elapsedMs_paused (s : Session) (e : Event)
    (h1 : s.status = .paused) (h2 : ((step s e).1).status = .paused) :
    ((step s e).1).elapsedMs = s.elapsedMs := by
  cases e <;> simp_all [step, canStart, initSession, failedSession]

/-- Claim C1: for every sequence of transition requests (start, pause,
resume, stop, cancel) applied from the initial idle state under normal
operation, the resulting status equals the one given by the transition
table of spec section 4.3, and any request not listed for the current
state (pause while not recording, resume while not paused, stop while
not recording or paused) leaves the entire session state unchanged and
signals InternalFailure. -/
theorem transition_table_correct :
    (∀ rs : List Req,
        (runReqs initSession rs).status = rs.foldl specStep Status.idle) ∧
    (∀ (s : Session) (r : Req), invalidReq s.status r = true →
        step s (reqEvent r) = (s, some ErrorKind.InternalFailure)) := by
  constructor
  · have key : ∀ (rs : List Req) (s : Session),
        (runReqs s rs).status = rs.foldl specStep s.status := by
      intro rs
      induction rs with
      | nil => intro s; rfl
      | cons r rs ih =>
        intro s
        simp only [runReqs, List.foldl]
        rw [ih, step_status_spec]
    intro rs
    exact key rs initSession
  · intro s r hr
    cases r <;> cases hs : s.status <;> simp_all [invalidReq, step, reqEvent]

/-- Closed instance of claim C1: a concrete request sequence follows
the table, and a pause issued in the idle state is rejected with
InternalFailure leaving the session unchanged. -/
theorem transition_table_correct_witness :
    (runReqs initSession [Req.start, Req.pause, Req.resume, Req.stop]).status
        = Status.stopped ∧
    step initSession (reqEvent Req.pause)
        = (initSession, some ErrorKind.InternalFailure) := by
  constructor
  · rw [transition_table_correct.1 [Req.start, Req.pause, Req.resume, Req.stop]]
    decide
  · exact transition_table_correct.2 initSession Req.pause (by decide)

/-- Claim C2: invoking stop on a recording session moves the status to
stopped, appends the final flushed chunk and releases the stream, the
chunk buffer is then non-empty, and the recorded audio is available as
a single byte payload assembled from the buffer. -/
theorem stop_finalizes_recording :
    ∀ (s : Session) (flush : Chunk) (ref : Nat), s.status = Status.recording →
      step s (.stop flush) =
        ({ s with status := .stopped
                  streamHandle := none
                  chunkBuffer := s.chunkBuffer ++ [flush] }, none) ∧
      ((step s (.stop flush)).1).chunkBuffer ≠ [] ∧
      assembleForStorage (step s (.stop flush)).1 ref =
        some { data := (s.chunkBuffer ++ [flush]).flatten
               reference := ref
               mimeType := webmMime
               durationSeconds := elapsedSeconds s } := by
  intro s flush ref hs
  have hcond : s.status = .recording ∨ s.status = .paused := Or.inl hs
  refine ⟨by simp [step, hcond], by simp [step, hcond], ?_⟩
  simp [step, hcond, assembleForStorage, assemble, elapsedSeconds]

/-- Closed instance of claim C2: stopping a freshly started session
leaves a non-empty chunk buffer. -/
theorem stop_finalizes_recording_witness :
    ((step (freshSession 0) (Event.stop [7])).1).chunkBuffer ≠ [] :=
  (stop_finalizes_recording (freshSession 0) [7] 3 rfl).2.1

/-- Claim C3: in every reachable session a recorded error condition
implies error status with no stream handle held, and a start that fails
with PermissionDenied produces error status, a PermissionDenied last
error, and no retained stream handle. -/
theorem error_implies_released :
    (∀ s : Session, reach s → s.lastError ≠ none →
        s.status = Status.error ∧ s.streamHandle = none) ∧
    (∀ s : Session,
        s.status = .idle ∨ s.status = .stopped ∨ s.status = .error →
        step s (.start (.error .PermissionDenied)) =
          (failedSession .PermissionDenied, some .PermissionDenied) ∧
        (failedSession ErrorKind.PermissionDenied).status = Status.error ∧
        (failedSession ErrorKind.PermissionDenied).lastError =
          some ⟨.PermissionDenied, errorMessageFor .PermissionDenied⟩ ∧
        (failedSession ErrorKind.PermissionDenied).streamHandle = none) := by
  constructor
  · intro s hr
    exact (sessionInv_reach s hr).1
  · intro s hs
    have hc : canStart s.status = true := by
      rcases hs with h | h | h <;> rw [h] <;> rfl
    exact ⟨by simp [step, hc], rfl, rfl, rfl⟩

/-- Closed instance of claim C3: the session reached through a start
that failed with PermissionDenied satisfies the error invariant. -/
theorem error_implies_released_witness :
    (failedSession ErrorKind.PermissionDenied).status = Status.error ∧
    (failedSession ErrorKind.PermissionDenied).streamHandle = none := by
  have e1 : (step initSession
      (Event.start (Except.error ErrorKind.PermissionDenied))).1
      = failedSession ErrorKind.PermissionDenied := by rfl
  have hreach : reach (failedSession ErrorKind.PermissionDenied) :=
    e1 ▸ reach.next initSession
      (Event.start (Except.error ErrorKind.PermissionDenied)) reach.init
  exact error_implies_released.1 (failedSession ErrorKind.PermissionDenied)
    hreach (by simp [failedSession])

/-- Claim C5: a start issued while recording or paused is an error-free
idempotent no-op that changes nothing, so a second start before a
terminal state is rejected rather than queued, and start actually
begins a new session only from idle, stopped, or error. -/
theorem start_idempotent_no_op :
    (∀ (s : Session) (acq : Except ErrorKind Nat),
        s.status = .recording ∨ s.status = .paused →
        step s (.start acq) = (s, none)) ∧
    (∀ (s : Session) (h : Nat),
        s.status = .idle ∨ s.status = .stopped ∨ s.status = .error →
        step s (.start (.ok h)) = (freshSession h, none)) := by
  constructor
  · intro s acq hs
    have hc : canStart s.status = false := by
      rcases hs with h | h <;> rw [h] <;> rfl
    simp [step, hc]
  · intro s h hs
    have hc : canStart s.status = true := by
      rcases hs with h' | h' | h' <;> rw [h'] <;> rfl
    simp [step, hc]

/-- Closed instance of claim C5: a second start during a live session
leaves it unchanged, while a start from idle arms a fresh session. -/
theorem start_idempotent_no_op_witness :
    step (freshSession 0) (Event.start (Except.ok 1)) = (freshSession 0, none) ∧
    step initSession (Event.start (Except.ok 2)) = (freshSession 2, none) :=
  ⟨start_idempotent_no_op.1 (freshSession 0) (Except.ok 1) (Or.inl rfl),
   start_idempotent_no_op.2 initSession 2 (Or.inl rfl)⟩

/-- Claim C6: cancel from any state succeeds with no error signal,
returns the status to idle, releases the stream, and clears the chunk
buffer, so a subsequent assembleForPlayback returns null. -/
theorem cancel_always_resets :
    ∀ (s : Session) (ref : Nat),
      step s Event.cancel = (initSession, none) ∧
      initSession.status = Status.idle ∧
      initSession.streamHandle = none ∧
      initSession.chunkBuffer = [] ∧
      assembleForPlayback initSession ref = none := by
  intro s ref
  exact ⟨rfl, rfl, rfl, rfl, by simp [assembleForPlayback, assemble, initSession]⟩

/-- Claim C7: for every reachable stopped session, repeated calls to
the result assembler are idempotent on the payload: two calls with
distinct freshly minted references yield two distinct references whose
backing byte sequences are byte-identical. -/
theorem assembler_idempotent :
    ∀ (s : Session) (r1 r2 : Nat), reach s → s.status = Status.stopped →
      r1 ≠ r2 →
      ∃ a1 a2 : RecordingArtifact,
        assembleForStorage s r1 = some a1 ∧
        assembleForStorage s r2 = some a2 ∧
        a1.reference ≠ a2.reference ∧ a1.data = a2.data := by
  intro s r1 r2 hr hs hne
  have hbuf : s.chunkBuffer ≠ [] := (sessionInv_reach s hr).2 hs
  refine ⟨⟨s.chunkBuffer.flatten, r1, webmMime, elapsedSeconds s⟩,
          ⟨s.chunkBuffer.flatten, r2, webmMime, elapsedSeconds s⟩,
          ?_, ?_, hne, rfl⟩ <;>
    simp [assembleForStorage, assemble, hbuf]

/-- Closed instance of claim C7: assembling a concrete reachable
stopped session twice yields distinct references over identical bytes. -/
theorem assembler_idempotent_witness :
    ∃ a1 a2 : RecordingArtifact,
      assembleForStorage (runEvents initSession
        [Event.start (Except.ok 0), Event.chunkReady [1], Event.stop [2]])
        0 = some a1 ∧
      assembleForStorage (runEvents initSession
        [Event.start (Except.ok 0), Event.chunkReady [1], Event.stop [2]])
        1 = some a2 ∧
      a1.reference ≠ a2.reference ∧ a1.data = a2.data := by
  have hreach : reach (runEvents initSession
      [Event.start (Except.ok 0), Event.chunkReady [1], Event.stop [2]]) :=
    reach.next _ (Event.stop [2])
      (reach.next _ (Event.chunkReady [1])
        (reach.next initSession (Event.start (Except.ok 0)) reach.init))
  exact assembler_idempotent _ 0 1 hreach (by decide) (by decide)

/-- Claim C8: elapsedSeconds never decreases across a step while the
status stays recording, never changes across a step while the status
stays paused, and for a start, pause, resume, stop run the final
duration counts exactly the wall-clock time spent recording, excluding
the paused interval. -/
theorem elapsed_monotone :
    (∀ (s : Session) (e : Event), s.status = .recording →
        ((step s e).1).status = .recording →
        elapsedSeconds s ≤ elapsedSeconds (step s e).1) ∧
    (∀ (s : Session) (e : Event), s.status = .paused →
        ((step s e).1).status = .paused →
        elapsedSeconds (step s e).1 = elapsedSeconds s) ∧
    (∀ a b c : Nat,
        elapsedSeconds (runEvents initSession
          [Event.start (Except.ok 0), Event.tick a, Event.pause,
           Event.tick b, Event.resume, Event.tick c, Event.stop []])
          = ((a : ℚ) + c) / 1000) := by
  refine ⟨?_, ?_, ?_⟩
  · intro s e h1 h2
    exact elapsedSeconds_mono (step_elapsedMs_recording s e h1 h2)
  · intro s e h1 h2
    unfold elapsedSeconds
    rw [step_elapsedMs_paused s e h1 h2]
  · intro a b c
    have hms : (runEvents initSession
        [Event.start (Except.ok 0), Event.tick a, Event.pause,
         Event.tick b, Event.resume, Event.tick c, Event.stop []]).elapsedMs
        = a + c := by
      simp [runEvents, step, initSession, freshSession, canStart]
    unfold elapsedSeconds
    rw [hms]
    push_cast
    ring

/-- Closed instance of claim C8: one tick while recording does not
decrease the timer, and one tick while paused does not change it. -/
theorem elapsed_monotone_witness :
    elapsedSeconds (freshSession 0) ≤
      elapsedSeconds (step (freshSession 0) (Event.tick 5)).1 ∧
    elapsedSeconds (step (step (freshSession 0) Event.pause).1
      (Event.tick 5)).1 = elapsedSeconds (step (freshSession 0) Event.pause).1 :=
  ⟨elapsed_monotone.1 (freshSession 0) (Event.tick 5) rfl rfl,
   elapsed_monotone.2.1 (step (freshSession 0) Event.pause).1
     (Event.tick 5) rfl rfl⟩

/-- Claim C9: for a run of start, two seconds of chunk delivery at the
default 500 ms interval, then stop, assembleForStorage returns an
artifact whose duration is 2.0 seconds and whose data length equals the
sum of the lengths of the 4 delivered chunks. -/
theorem scenario_two_seconds :
    ∀ (k1 k2 k3 k4 : Chunk) (ref : Nat),
      ∃ a : RecordingArtifact,
        assembleForStorage (runEvents initSession
          [Event.start (Except.ok 0), Event.tick 500, Event.chunkReady k1,
           Event.tick 500, Event.chunkReady k2, Event.tick 500,
           Event.chunkReady k3, Event.tick 500, Event.stop k4]) ref = some a ∧
        a.durationSeconds = 2 ∧
        a.data.length = k1.length + k2.length + k3.length + k4.length := by
  intro k1 k2 k3 k4 ref
  have hfinal : runEvents initSession
      [Event.start (Except.ok 0), Event.tick 500, Event.chunkReady k1,
       Event.tick 500, Event.chunkReady k2, Event.tick 500,
       Event.chunkReady k3, Event.tick 500, Event.stop k4]
      = { status := .stopped
          streamHandle := none
          chunkBuffer := [k1, k2, k3, k4]
          elapsedMs := 2000
          lastError := none } := by
    simp [runEvents, step, initSession, freshSession, canStart]
  refine ⟨⟨[k1, k2, k3, k4].flatten, ref, webmMime, 2⟩, ?_, rfl, ?_⟩
  · rw [hfinal]
    simp [assembleForStorage, assemble, elapsedSeconds]
    norm_num
  · simp [List.flatten]
    omega

/-- Claim C10: the derived boolean projections satisfy isPaused implies
isRecording, and pausing a recording session keeps isRecording true, so
isRecording false together with isPaused true is impossible. -/
theorem isPaused_implies_isRecording :
    (∀ s : Session, isPaused s = true → isRecording s = true) ∧
    (∀ s : Session, s.status = .recording →
        isRecording (step s Event.pause).1 = true) := by
  constructor
  · intro s h
    cases hs : s.status <;> simp_all [isPaused, isRecording]
  · intro s hs
    simp [step, hs, isRecording]

/-- Closed instance of claim C10: the concrete paused session obtained
by pausing a fresh recording still reports isRecording true. -/
theorem isPaused_implies_isRecording_witness :
    isRecording (step (freshSession 0) Event.pause).1 = true :=
  isPaused_implies_isRecording.1 (step (freshSession 0) Event.pause).1
    (by decide)

/-- Claim C4 counterexample: the status union type declared by the
repository does not contain a paused value and does not have five
values, refuting the claim that the externally observed status field
ranges over exactly five values with paused among them. -/
theorem status_values_no_paused :
    "paused" ∉ documentedStatusValues ∧ documentedStatusValues.length ≠ 5 := by
  decide

/-- Claim C4 amended: the externally observed status field ranges over
exactly the four documented values idle, recording, stopped, and error,
with idle as the initial value, and paused is not among them. -/
theorem status_values_exactly_four :
    documentedStatusValues = ["idle", "recording", "stopped", "error"] ∧
    documentedStatusValues.Nodup ∧
    (∀ st : DocStatus, docStatusString st ∈ documentedStatusValues) ∧
    docStatusString docInitialStatus = "idle" ∧
    (∀ st : DocStatus, docStatusString st ≠ "paused") := by
  refine ⟨rfl, by decide, ?_, rfl, ?_⟩ <;> intro st <;> cases st <;> decide

end AudioRecorder
